import Mathlib

/-!
Verification of the civic-data aggregation logic shared by the visualization
scripts (`create_visualizations.py`, `create_html_visualizations.py`,
`real_data_analysis.py`).  The record types carry the raw string `count`
fields of the JSON query results; Python's `int()` is modelled by `pyInt`,
`str.upper()` by `pyUpper`, and each aggregation loop is translated into an
explicit recursion over the record list that either returns the finished
table or propagates the first parse failure, as the Python `for` loop with a
raising `int()` call does.
-/

deriving instance DecidableEq for Except

namespace Civic

/-- A raw 311 complaint record as produced by the grouped query: a
`complaint_type` string and a decimal-string `count`
(`create_visualizations.py:204-206`). -/
structure ComplaintRecord where
  complaint_type : String
  count : String
deriving DecidableEq

/-- A raw restaurant-grade record: borough, letter grade and decimal-string
count (`create_visualizations.py:93-96`). -/
structure GradeRecord where
  boro : String
  grade : String
  count : String
deriving DecidableEq

/-- The aggregator-local failure: a record whose `count` field is not numeric,
i.e. the `ValueError` that Python's `int()` raises on the string. -/
structure InvalidRecordError where
  bad_count : String
deriving DecidableEq

/-- Numeric value of a list of decimal digits, most significant first. -/
def digitsVal (ds : List Char) : Nat :=
  ds.foldl (fun n d => 10 * n + (d.toNat - 48)) 0

/-- Model of Python `int(s)` on a string: an optional sign followed by at
least one decimal digit parses to the signed value; anything else raises
(`none`).  (Python additionally strips whitespace and allows inner
underscores; such inputs do not occur in this data and are modelled as
failures.) -/
def pyInt (s : String) : Option Int :=
  match s.data with
  | [] => none
  | '-' :: ds =>
    if ds ≠ [] ∧ ds.all Char.isDigit then some (-(digitsVal ds : Int)) else none
  | '+' :: ds =>
    if ds ≠ [] ∧ ds.all Char.isDigit then some ((digitsVal ds : Int)) else none
  | ds =>
    if ds.all Char.isDigit then some ((digitsVal ds : Int)) else none

/-- Model of Python `str.upper()`: uppercase every character
(`Char.toUpper` maps `a`-`z` to `A`-`Z` and fixes everything else, which is
exactly Python's behaviour on the basic-latin strings occurring here). -/
def pyUpper (s : String) : String :=
  ⟨s.data.map Char.toUpper⟩

/-- `m[k] += v` on an association-list table: add `v` to every entry whose
key is `k` (every table built below has pairwise-distinct keys, so exactly
one entry changes). -/
def assocAdd {κ : Type} [DecidableEq κ] (m : List (κ × Int)) (k : κ) (v : Int) :
    List (κ × Int) :=
  m.map (fun p => if p.1 = k then (p.1, p.2 + v) else p)

/-- The inner loop of the categorisation: scan the bucket definitions in
their given order and return the name of the first bucket whose type list
contains `t`, or `none` if no bucket matches
(`create_visualizations.py:209-213`, `create_html_visualizations.py:68-72`). -/
def categorize (buckets : List (String × List String)) (t : String) : Option String :=
  match buckets with
  | [] => none
  | p :: rest => if t ∈ p.2 then some p.1 else categorize rest t

/-- One iteration of the categorisation loop: parse the record's count with
`int()`, then add it to the first matching bucket, falling through to the
catch-all bucket when no bucket matches
(`create_visualizations.py:204-216`, `create_html_visualizations.py:64-74`). -/
def categoryStep (buckets : List (String × List String)) (catchAll : String)
    (m : List (String × Int)) (r : ComplaintRecord) :
    Except InvalidRecordError (List (String × Int)) :=
  match pyInt r.count with
  | none => .error ⟨r.count⟩
  | some c =>
    match categorize buckets r.complaint_type with
    | some name => .ok (assocAdd m name c)
    | none => .ok (assocAdd m catchAll c)

/-- The categorisation loop over the whole record list, threading the table
through `categoryStep` and propagating the first failure. -/
def aggCategoryAux (buckets : List (String × List String)) (catchAll : String)
    (m : List (String × Int)) : List ComplaintRecord →
    Except InvalidRecordError (List (String × Int))
  | [] => .ok m
  | r :: rs =>
    match categoryStep buckets catchAll m r with
    | .error e => .error e
    | .ok m1 => aggCategoryAux buckets catchAll m1 rs

/-- `aggregate_by_category` (spec §4.1), as realised by the categorisation
loops of `create_complaint_categories_chart`
(`create_visualizations.py:202-216`) and `create_html_dashboard`
(`create_html_visualizations.py:63-74`): start from every declared bucket at
zero (`category_counts = {cat: 0 for cat in categories.keys()}`) and fold the
records through the loop body. -/
def aggregate_by_category (records : List ComplaintRecord)
    (buckets : List (String × List String)) (catchAll : String) :
    Except InvalidRecordError (List (String × Int)) :=
  aggCategoryAux buckets catchAll (buckets.map (fun p => (p.1, 0))) records

/-- The bucket-definition table hard-coded in the scripts
(`create_visualizations.py:194-200`, `create_html_visualizations.py:55-61`). -/
def bucket_definitions : List (String × List String) :=
  [("Infrastructure", ["HEAT/HOT WATER", "PLUMBING"]),
   ("Noise", ["Noise - Residential", "Noise - Street/Sidewalk",
              "Noise - Commercial", "Noise"]),
   ("Parking", ["Illegal Parking", "Blocked Driveway"]),
   ("Other", [])]

/-- The five known boroughs (`create_visualizations.py:90`). -/
def known_boroughs : List String :=
  ["Manhattan", "Brooklyn", "Queens", "Bronx", "Staten Island"]

/-- The recognised grades (`create_visualizations.py:97`). -/
def recognized_grades : List String := ["A", "B", "C"]

/-- The dense zero-filled table with one cell per declared (borough, grade)
pair: `grade_counts = {boro: {'A': 0, 'B': 0, 'C': 0} for boro in boroughs}`
(`create_visualizations.py:91`), flattened to cells keyed by the pair. -/
def initTable (bs gs : List String) : List ((String × String) × Int) :=
  bs.flatMap (fun b => gs.map (fun g => ((b, g), 0)))

/-- One iteration of the borough/grade loop: parse the count, uppercase the
grade, and add the count to cell (boro, grade) when the borough is a table
key and the grade is recognised; otherwise drop the record silently
(`create_visualizations.py:93-98`, `create_html_visualizations.py:38-43`). -/
def gradeStep (bs gs : List String) (t : List ((String × String) × Int))
    (r : GradeRecord) : Except InvalidRecordError (List ((String × String) × Int)) :=
  match pyInt r.count with
  | none => .error ⟨r.count⟩
  | some c =>
    if r.boro ∈ bs ∧ pyUpper r.grade ∈ gs then
      .ok (assocAdd t (r.boro, pyUpper r.grade) c)
    else
      .ok t

/-- The borough/grade loop over the whole record list. -/
def aggGradeAux (bs gs : List String) (t : List ((String × String) × Int)) :
    List GradeRecord → Except InvalidRecordError (List ((String × String) × Int))
  | [] => .ok t
  | r :: rs =>
    match gradeStep bs gs t r with
    | .error e => .error e
    | .ok t1 => aggGradeAux bs gs t1 rs

/-- `aggregate_by_borough_and_grade` (spec §4.1), as realised by
`create_restaurant_grades_chart` (`create_visualizations.py:90-98`) and
`create_html_dashboard` (`create_html_visualizations.py:35-43`). -/
def aggregate_by_borough_and_grade (records : List GradeRecord)
    (bs gs : List String) : Except InvalidRecordError (List ((String × String) × Int)) :=
  aggGradeAux bs gs (initTable bs gs) records

/-- The running-total loop of `create_grade_distribution_pie` for one grade
letter: `sum(int(g['count']) for g in grades if g['grade'].upper() == 'A')`
(`create_visualizations.py:148-150`).  The borough is ignored; `int()` is
applied only to records passing the grade filter. -/
def totalGradeAux (g : String) (acc : Int) :
    List GradeRecord → Except InvalidRecordError Int
  | [] => .ok acc
  | r :: rs =>
    if pyUpper r.grade = g then
      match pyInt r.count with
      | none => .error ⟨r.count⟩
      | some c => totalGradeAux g (acc + c) rs
    else
      totalGradeAux g acc rs

/-- Overall pie total for grade `g` (`create_visualizations.py:148-150`). -/
def total_grade (records : List GradeRecord) (g : String) :
    Except InvalidRecordError Int :=
  totalGradeAux g 0 records

/-- The chart-side column total for grade `g`: the sum of the `g` cells over
the table rows, i.e. `sum(grade_counts[b]['A'] for b in boroughs)`
(`create_visualizations.py:101-103` together with the stacked-bar totals). -/
def tableGradeTotal (t : List ((String × String) × Int)) (g : String) : Int :=
  (t.map (fun cell => if cell.1.2 = g then cell.2 else 0)).sum

/-- Total count carried by records of (uppercased) grade `g` whose borough is
one of the five known boroughs: the part of the pie total that the chart also
counts. -/
def in_total (records : List GradeRecord) (g : String) : Int :=
  (records.map (fun r =>
    if pyUpper r.grade = g ∧ r.boro ∈ known_boroughs
    then (pyInt r.count).getD 0 else 0)).sum

/-- Total count carried by records of (uppercased) grade `g` whose borough is
outside the five-borough set: the records the chart drops but the pie keeps. -/
def outside_total (records : List GradeRecord) (g : String) : Int :=
  (records.map (fun r =>
    if pyUpper r.grade = g ∧ r.boro ∉ known_boroughs
    then (pyInt r.count).getD 0 else 0)).sum

/-- `compute_percentage` (spec §4.1), as realised by the guarded expression
`(top_count / total * 100) if total > 0 else 0`
(`real_data_analysis.py:191`; the same `> 0` guard appears at line 230).
Python float division is modelled over `ℚ`. -/
def compute_percentage (part whole : Int) : ℚ :=
  if 0 < whole then (part : ℚ) / (whole : ℚ) * 100 else 0

/-- The spec's own description of `compute_percentage`: `part / whole * 100`
rounded to one decimal place when `whole ≠ 0`, and `0.0` when `whole = 0`
(spec §4.1).  Stated from the spec's words, for comparison with the code's
realisation. -/
def compute_percentage_spec (part whole : Int) : ℚ :=
  if whole = 0 then 0 else ((round ((part : ℚ) / (whole : ℚ) * 100 * 10) : ℤ) : ℚ) / 10

/-- Python's `ZeroDivisionError`. -/
structure ZeroDivisionError where
deriving DecidableEq

/-- The Grade-A percentage of the HTML dashboard,
`total_a/total_restaurants*100` (`create_html_visualizations.py:214`): this
call site has no guard, so Python `/` raises `ZeroDivisionError` when the
restaurant total is zero. -/
def grade_a_pct_html (part whole : Int) : Except ZeroDivisionError ℚ :=
  if whole = 0 then .error ⟨⟩ else .ok ((part : ℚ) / (whole : ℚ) * 100)

/-- Descending comparison on the count component: the order realised by
`sorted(borough_totals.items(), key=lambda x: x[1], reverse=True)`
(`create_visualizations.py:263`). -/
def countDesc (a b : String × Int) : Prop := b.2 ≤ a.2

instance : DecidableRel countDesc :=
  fun a b => inferInstanceAs (Decidable (b.2 ≤ a.2))

instance : IsTotal (String × Int) countDesc :=
  ⟨fun a b => le_total b.2 a.2⟩

instance : IsTrans (String × Int) countDesc :=
  ⟨fun _ _ _ h1 h2 => le_trans h2 h1⟩

/-- The stable descending sort on counts performed by Python's stable
`sorted` with `key=lambda x: x[1], reverse=True`
(`create_visualizations.py:263`); insertion sort with `countDesc` is the
stable descending sort. -/
def sortByCountDesc (records : List (String × Int)) : List (String × Int) :=
  records.insertionSort countDesc

/-- `top_n` (spec §4.1): the first `n` records after the stable descending
sort (`create_visualizations.py:262-265`; the `[:5]`, `[:10]` truncations of
presorted data elsewhere supply the take). -/
def top_n (records : List (String × Int)) (n : Nat) : List (String × Int) :=
  (sortByCountDesc records).take n

/-! ### Association-table lemmas -/

lemma assocAdd_map_fst {κ : Type} [DecidableEq κ] (m : List (κ × Int)) (k : κ) (v : Int) :
    (assocAdd m k v).map Prod.fst = m.map Prod.fst := by
  induction m with
  | nil => rfl
  | cons p m ih =>
    simp only [assocAdd, List.map_cons] at ih ⊢
    by_cases h : p.1 = k
    · simpa [h] using ih
    · simpa [h] using ih

lemma assocAdd_of_not_mem {κ : Type} [DecidableEq κ] (m : List (κ × Int)) (k : κ) (v : Int)
    (hk : k ∉ m.map Prod.fst) : assocAdd m k v = m := by
  induction m with
  | nil => rfl
  | cons p m ih =>
    simp only [List.map_cons, List.mem_cons, not_or] at hk
    simp only [assocAdd, List.map_cons] at ih ⊢
    rw [if_neg (fun h => hk.1 h.symm), ih hk.2]

lemma assocAdd_sndSum_of_nodup {κ : Type} [DecidableEq κ] (m : List (κ × Int)) (k : κ)
    (v : Int) (hnd : (m.map Prod.fst).Nodup) (hk : k ∈ m.map Prod.fst) :
    ((assocAdd m k v).map Prod.snd).sum = (m.map Prod.snd).sum + v := by
  induction m with
  | nil => cases hk
  | cons p m ih =>
    simp only [List.map_cons, List.nodup_cons] at hnd
    rcases List.mem_cons.mp hk with hk1 | hk1
    · have htail : assocAdd m k v = m := assocAdd_of_not_mem m k v (hk1 ▸ hnd.1)
      simp only [assocAdd, List.map_cons, List.sum_cons] at htail ⊢
      rw [if_pos hk1.symm, htail]
      simp only [List.map_cons, List.sum_cons]
      ring
    · have hne : p.1 ≠ k := by
        intro h
        exact hnd.1 (h ▸ hk1)
      simp only [assocAdd, List.map_cons, List.sum_cons] at ih ⊢
      rw [if_neg hne, ih hnd.2 hk1]
      ring

lemma assocAdd_zero_key {κ : Type} [DecidableEq κ] (m : List (κ × Int)) (k : κ) (v : Int)
    (b : κ) (hkb : k ≠ b) (h : ∀ p ∈ m, p.1 = b → p.2 = 0) :
    ∀ p ∈ assocAdd m k v, p.1 = b → p.2 = 0 := by
  intro p hp hpb
  simp only [assocAdd, List.mem_map] at hp
  obtain ⟨q, hq, hpq⟩ := hp
  subst hpq
  by_cases hk : q.1 = k
  · simp only [if_pos hk] at hpb
    exact absurd ((hpb ▸ hk : b = k)).symm hkb
  · simp only [if_neg hk] at hpb ⊢
    exact h q hq hpb

/-! ### Categorisation lemmas -/

lemma categorize_eq_find (buckets : List (String × List String)) (t : String) :
    categorize buckets t = (buckets.find? (fun p => decide (t ∈ p.2))).map Prod.fst := by
  induction buckets with
  | nil => rfl
  | cons p rest ih =>
    by_cases h : t ∈ p.2
    · simp [categorize, h, List.find?_cons_of_pos]
    · simp only [categorize, if_neg h, ih]
      rw [List.find?_cons_of_neg]
      simpa using h

lemma categorize_mem_keys (buckets : List (String × List String)) (t name : String)
    (h : categorize buckets t = some name) : name ∈ buckets.map Prod.fst := by
  induction buckets with
  | nil => cases h
  | cons p rest ih =>
    simp only [categorize] at h
    by_cases hp : t ∈ p.2
    · rw [if_pos hp] at h
      injection h with h
      simp [h]
    · rw [if_neg hp] at h
      simp only [List.map_cons, List.mem_cons]
      exact Or.inr (ih h)

lemma categoryStep_keys (buckets : List (String × List String)) (catchAll : String)
    (m m1 : List (String × Int)) (r : ComplaintRecord)
    (h : categoryStep buckets catchAll m r = .ok m1) :
    m1.map Prod.fst = m.map Prod.fst := by
  unfold categoryStep at h
  cases hp : pyInt r.count with
  | none => rw [hp] at h; cases h
  | some c =>
    rw [hp] at h
    cases hcat : categorize buckets r.complaint_type with
    | none =>
      rw [hcat] at h
      injection h with h
      rw [← h, assocAdd_map_fst]
    | some name =>
      rw [hcat] at h
      injection h with h
      rw [← h, assocAdd_map_fst]

lemma aggCategoryAux_keys (buckets : List (String × List String)) (catchAll : String) :
    ∀ (records : List ComplaintRecord) (m0 m : List (String × Int)),
      aggCategoryAux buckets catchAll m0 records = .ok m →
      m.map Prod.fst = m0.map Prod.fst := by
  intro records
  induction records with
  | nil =>
    intro m0 m h
    injection h with h
    rw [h]
  | cons r rs ih =>
    intro m0 m h
    unfold aggCategoryAux at h
    cases hs : categoryStep buckets catchAll m0 r with
    | error e => rw [hs] at h; cases h
    | ok m1 =>
      rw [hs] at h
      rw [ih m1 m h, categoryStep_keys buckets catchAll m0 m1 r hs]

lemma aggCategoryAux_sndSum (buckets : List (String × List String)) (catchAll : String) :
    ∀ (records : List ComplaintRecord) (m0 m : List (String × Int)),
      (m0.map Prod.fst).Nodup →
      catchAll ∈ m0.map Prod.fst →
      (∀ p ∈ buckets, p.1 ∈ m0.map Prod.fst) →
      aggCategoryAux buckets catchAll m0 records = .ok m →
      (m.map Prod.snd).sum
        = (m0.map Prod.snd).sum + (records.map (fun r => (pyInt r.count).getD 0)).sum := by
  intro records
  induction records with
  | nil =>
    intro m0 m _ _ _ h
    injection h with h
    simp [h]
  | cons r rs ih =>
    intro m0 m hnd hca hbk h
    unfold aggCategoryAux at h
    cases hs : categoryStep buckets catchAll m0 r with
    | error e => rw [hs] at h; cases h
    | ok m1 =>
      rw [hs] at h
      unfold categoryStep at hs
      cases hp : pyInt r.count with
      | none => rw [hp] at hs; cases hs
      | some c =>
        rw [hp] at hs
        have keyMem : ∃ k, m1 = assocAdd m0 k c ∧ k ∈ m0.map Prod.fst := by
          cases hcat : categorize buckets r.complaint_type with
          | none =>
            rw [hcat] at hs
            injection hs with hs
            exact ⟨catchAll, hs.symm, hca⟩
          | some name =>
            rw [hcat] at hs
            injection hs with hs
            refine ⟨name, hs.symm, ?_⟩
            obtain ⟨p, hpmem, hpname⟩ :=
              List.mem_map.mp (categorize_mem_keys buckets r.complaint_type name hcat)
            exact hpname ▸ hbk p hpmem
        obtain ⟨k, hm1, hk⟩ := keyMem
        have hkeys : m1.map Prod.fst = m0.map Prod.fst := by
          rw [hm1, assocAdd_map_fst]
        have hsum1 : (m1.map Prod.snd).sum = (m0.map Prod.snd).sum + c := by
          rw [hm1]
          exact assocAdd_sndSum_of_nodup m0 k c hnd hk
        have := ih m1 m (hkeys ▸ hnd) (hkeys ▸ hca)
          (fun p hp => hkeys ▸ hbk p hp) h
        rw [this, hsum1, List.map_cons, List.sum_cons, hp]
        simp only [Option.getD_some]
        ring

lemma aggCategoryAux_error_iff (buckets : List (String × List String)) (catchAll : String) :
    ∀ (records : List ComplaintRecord) (m0 : List (String × Int)),
      (∃ e, aggCategoryAux buckets catchAll m0 records = .error e)
        ↔ ∃ r ∈ records, pyInt r.count = none := by
  intro records
  induction records with
  | nil => intro m0; simp [aggCategoryAux]
  | cons r rs ih =>
    intro m0
    cases hp : pyInt r.count with
    | none =>
      constructor
      · intro _
        exact ⟨r, List.mem_cons_self r rs, hp⟩
      · intro _
        refine ⟨⟨r.count⟩, ?_⟩
        unfold aggCategoryAux categoryStep
        rw [hp]
    | some c =>
      obtain ⟨m1, hs⟩ : ∃ m1, categoryStep buckets catchAll m0 r = .ok m1 := by
        unfold categoryStep
        rw [hp]
        cases categorize buckets r.complaint_type <;> exact ⟨_, rfl⟩
      have hred : aggCategoryAux buckets catchAll m0 (r :: rs)
          = aggCategoryAux buckets catchAll m1 rs := by
        conv_lhs => rw [aggCategoryAux]
        rw [hs]
      rw [hred, ih m1]
      constructor
      · intro ⟨q, hq, hqn⟩
        exact ⟨q, List.mem_cons_of_mem r hq, hqn⟩
      · intro ⟨q, hq, hqn⟩
        rcases List.mem_cons.mp hq with hq | hq
        · rw [hq] at hqn
          rw [hqn] at hp
          cases hp
        · exact ⟨q, hq, hqn⟩

lemma aggCategoryAux_zero (buckets : List (String × List String)) (catchAll b : String) :
    ∀ (records : List ComplaintRecord) (m0 m : List (String × Int)),
      aggCategoryAux buckets catchAll m0 records = .ok m →
      (∀ r ∈ records, (categorize buckets r.complaint_type).getD catchAll ≠ b) →
      (∀ p ∈ m0, p.1 = b → p.2 = 0) →
      ∀ p ∈ m, p.1 = b → p.2 = 0 := by
  intro records
  induction records with
  | nil =>
    intro m0 m h _ h0
    injection h with h
    exact h ▸ h0
  | cons r rs ih =>
    intro m0 m h hnb h0
    unfold aggCategoryAux at h
    cases hs : categoryStep buckets catchAll m0 r with
    | error e => rw [hs] at h; cases h
    | ok m1 =>
      rw [hs] at h
      refine ih m1 m h (fun q hq => hnb q (List.mem_cons_of_mem r hq)) ?_
      unfold categoryStep at hs
      cases hp : pyInt r.count with
      | none => rw [hp] at hs; cases hs
      | some c =>
        rw [hp] at hs
        have hrb := hnb r (List.mem_cons_self r rs)
        cases hcat : categorize buckets r.complaint_type with
        | none =>
          rw [hcat] at hs
          injection hs with hs
          rw [hcat] at hrb
          exact hs ▸ assocAdd_zero_key m0 catchAll c b (by simpa using hrb) h0
        | some name =>
          rw [hcat] at hs
          injection hs with hs
          rw [hcat] at hrb
          exact hs ▸ assocAdd_zero_key m0 name c b (by simpa using hrb) h0

/-! ### Uppercasing lemmas -/

lemma char_toNat_ofNat_of_lt (m : Nat) (h : m < 55296) : (Char.ofNat m).toNat = m := by
  have hv : Nat.isValidChar m := Or.inl h
  rw [Char.ofNat, dif_pos hv]
  simp [Char.ofNatAux, Char.toNat, UInt32.toNat, BitVec.toNat_ofNatLt]

lemma char_toUpper_eq (c : Char) :
    c.toUpper = if c.toNat ≥ 97 ∧ c.toNat ≤ 122 then Char.ofNat (c.toNat - 32) else c := rfl

lemma char_toUpper_idem (c : Char) : c.toUpper.toUpper = c.toUpper := by
  rw [char_toUpper_eq c]
  by_cases h : c.toNat ≥ 97 ∧ c.toNat ≤ 122
  · rw [if_pos h, char_toUpper_eq]
    rw [char_toNat_ofNat_of_lt (c.toNat - 32) (by omega)]
    rw [if_neg (by omega)]
  · rw [if_neg h, char_toUpper_eq, if_neg h]

lemma pyUpper_idem (s : String) : pyUpper (pyUpper s) = pyUpper s := by
  unfold pyUpper
  simp [List.map_map, Function.comp_def, char_toUpper_idem]

/-! ### Borough/grade-table lemmas -/

lemma aggGradeAux_cons (bs gs : List String) (t0 : List ((String × String) × Int))
    (q : GradeRecord) (rs : List GradeRecord) :
    aggGradeAux bs gs t0 (q :: rs)
      = match gradeStep bs gs t0 q with
        | .error e => .error e
        | .ok t1 => aggGradeAux bs gs t1 rs := rfl

lemma gradeStep_keys (bs gs : List String) (t t1 : List ((String × String) × Int))
    (r : GradeRecord) (h : gradeStep bs gs t r = .ok t1) :
    t1.map Prod.fst = t.map Prod.fst := by
  unfold gradeStep at h
  split at h
  · exact Except.noConfusion h
  · split at h
    · injection h with h
      rw [← h, assocAdd_map_fst]
    · injection h with h
      rw [h]

lemma aggGradeAux_keys (bs gs : List String) :
    ∀ (records : List GradeRecord) (t0 t : List ((String × String) × Int)),
      aggGradeAux bs gs t0 records = .ok t → t.map Prod.fst = t0.map Prod.fst := by
  intro records
  induction records with
  | nil =>
    intro t0 t h
    injection h with h
    rw [h]
  | cons r rs ih =>
    intro t0 t h
    rw [aggGradeAux_cons] at h
    cases hs : gradeStep bs gs t0 r with
    | error e => rw [hs] at h; cases h
    | ok t1 =>
      rw [hs] at h
      rw [ih t1 t h, gradeStep_keys bs gs t0 t1 r hs]

lemma aggGradeAux_skip (bs gs : List String) (r : GradeRecord)
    (hc : (pyInt r.count).isSome = true)
    (hu : r.boro ∉ bs ∨ pyUpper r.grade ∉ gs) :
    ∀ (rs1 rs2 : List GradeRecord) (t0 : List ((String × String) × Int)),
      aggGradeAux bs gs t0 (rs1 ++ r :: rs2) = aggGradeAux bs gs t0 (rs1 ++ rs2) := by
  have hstep : ∀ t, gradeStep bs gs t r = .ok t := by
    intro t
    unfold gradeStep
    obtain ⟨c, hp⟩ := Option.isSome_iff_exists.mp hc
    simp only [hp]
    rw [if_neg]
    intro hm
    rcases hu with hu | hu
    · exact hu hm.1
    · exact hu hm.2
  intro rs1
  induction rs1 with
  | nil =>
    intro rs2 t0
    simp only [List.nil_append, aggGradeAux_cons]
    rw [hstep t0]
  | cons q qs ih =>
    intro rs2 t0
    simp only [List.cons_append, aggGradeAux_cons]
    cases gradeStep bs gs t0 q with
    | error e => rfl
    | ok t1 => exact ih rs2 t1

lemma initTable_vals (bs gs : List String) :
    ∀ q ∈ initTable bs gs, q.2 = (0 : Int) := by
  intro q hq
  unfold initTable at hq
  obtain ⟨b, _, hq2⟩ := List.mem_flatMap.mp hq
  obtain ⟨g, _, hg⟩ := List.mem_map.mp hq2
  rw [← hg]

lemma aggGradeAux_zero (bs gs : List String) (key : String × String) :
    ∀ (records : List GradeRecord) (t0 t : List ((String × String) × Int)),
      aggGradeAux bs gs t0 records = .ok t →
      (∀ r ∈ records, ¬(r.boro = key.1 ∧ pyUpper r.grade = key.2)) →
      (∀ p ∈ t0, p.1 = key → p.2 = 0) →
      ∀ p ∈ t, p.1 = key → p.2 = 0 := by
  intro records
  induction records with
  | nil =>
    intro t0 t h _ h0
    injection h with h
    exact h ▸ h0
  | cons r rs ih =>
    intro t0 t h hnr h0
    rw [aggGradeAux_cons] at h
    cases hs : gradeStep bs gs t0 r with
    | error e => rw [hs] at h; cases h
    | ok t1 =>
      rw [hs] at h
      refine ih t1 t h (fun q hq => hnr q (List.mem_cons_of_mem r hq)) ?_
      unfold gradeStep at hs
      split at hs
      · exact Except.noConfusion hs
      · split at hs
        · injection hs with hs
          refine hs ▸ assocAdd_zero_key t0 (r.boro, pyUpper r.grade) _ key ?_ h0
          intro hk
          exact hnr r (List.mem_cons_self r rs)
            ⟨congrArg Prod.fst hk, congrArg Prod.snd hk⟩
        · injection hs with hs
          exact hs ▸ h0

lemma gradeStep_upper_congr (bs gs : List String) (r : GradeRecord)
    (t : List ((String × String) × Int)) :
    gradeStep bs gs t { r with grade := pyUpper r.grade } = gradeStep bs gs t r := by
  unfold gradeStep
  simp only [pyUpper_idem]

lemma aggGradeAux_congr_mid (bs gs : List String) (r r2 : GradeRecord)
    (hstep : ∀ t, gradeStep bs gs t r2 = gradeStep bs gs t r) :
    ∀ (rs1 rs2 : List GradeRecord) (t0 : List ((String × String) × Int)),
      aggGradeAux bs gs t0 (rs1 ++ r2 :: rs2) = aggGradeAux bs gs t0 (rs1 ++ r :: rs2) := by
  intro rs1
  induction rs1 with
  | nil =>
    intro rs2 t0
    simp only [List.nil_append, aggGradeAux_cons]
    rw [hstep t0]
  | cons q qs ih =>
    intro rs2 t0
    simp only [List.cons_append, aggGradeAux_cons]
    cases gradeStep bs gs t0 q with
    | error e => rfl
    | ok t1 => exact ih rs2 t1

lemma assocAdd_cons {κ : Type} [DecidableEq κ] (p : κ × Int) (m : List (κ × Int))
    (k : κ) (v : Int) :
    assocAdd (p :: m) k v = (if p.1 = k then (p.1, p.2 + v) else p) :: assocAdd m k v := rfl

lemma tableGradeTotal_cons (p : (String × String) × Int)
    (t : List ((String × String) × Int)) (g : String) :
    tableGradeTotal (p :: t) g = (if p.1.2 = g then p.2 else 0) + tableGradeTotal t g := by
  simp [tableGradeTotal]

lemma tableGradeTotal_assocAdd (t : List ((String × String) × Int)) (k : String × String)
    (c : Int) (g : String) (hnd : (t.map Prod.fst).Nodup) (hk : k ∈ t.map Prod.fst) :
    tableGradeTotal (assocAdd t k c) g
      = tableGradeTotal t g + (if k.2 = g then c else 0) := by
  induction t with
  | nil => cases hk
  | cons p t ih =>
    simp only [List.map_cons, List.nodup_cons] at hnd
    rcases List.mem_cons.mp hk with hk1 | hk1
    · subst hk1
      have htail : assocAdd t p.1 c = t := assocAdd_of_not_mem t p.1 c hnd.1
      rw [assocAdd_cons, if_pos rfl, htail, tableGradeTotal_cons, tableGradeTotal_cons]
      by_cases d : p.1.2 = g
      · rw [if_pos d, if_pos d, if_pos d]
        ring
      · rw [if_neg d, if_neg d, if_neg d]
        ring
    · have hne : p.1 ≠ k := fun h => hnd.1 (h ▸ hk1)
      rw [assocAdd_cons, if_neg hne, tableGradeTotal_cons, tableGradeTotal_cons,
        ih hnd.2 hk1]
      ring

lemma totalGradeAux_cons (g : String) (acc : Int) (r : GradeRecord)
    (rs : List GradeRecord) :
    totalGradeAux g acc (r :: rs)
      = if pyUpper r.grade = g then
          (match pyInt r.count with
           | none => .error ⟨r.count⟩
           | some c => totalGradeAux g (acc + c) rs)
        else totalGradeAux g acc rs := rfl

lemma totalGradeAux_split (g : String) :
    ∀ (records : List GradeRecord) (acc : Int),
      (∀ r ∈ records, (pyInt r.count).isSome = true) →
      totalGradeAux g acc records
        = .ok (acc + in_total records g + outside_total records g) := by
  intro records
  induction records with
  | nil =>
    intro acc _
    simp [totalGradeAux, in_total, outside_total]
  | cons r rs ih =>
    intro acc hparse
    obtain ⟨c, hc⟩ := Option.isSome_iff_exists.mp (hparse r (List.mem_cons_self r rs))
    have hp2 : ∀ q ∈ rs, (pyInt q.count).isSome = true :=
      fun q hq => hparse q (List.mem_cons_of_mem r hq)
    rw [totalGradeAux_cons]
    by_cases hgr : pyUpper r.grade = g
    · rw [if_pos hgr]
      simp only [hc]
      rw [ih (acc + c) hp2]
      simp only [in_total, outside_total, List.map_cons, List.sum_cons]
      by_cases hb : r.boro ∈ known_boroughs
      · rw [if_pos ⟨hgr, hb⟩, if_neg (fun hcond => hcond.2 hb), hc]
        simp only [Option.getD_some]
        congr 1
        ring
      · rw [if_neg (fun hcond => hb hcond.2), if_pos ⟨hgr, hb⟩, hc]
        simp only [Option.getD_some]
        congr 1
        ring
    · rw [if_neg hgr, ih acc hp2]
      simp only [in_total, outside_total, List.map_cons, List.sum_cons]
      rw [if_neg (fun hcond => hgr hcond.1), if_neg (fun hcond => hgr hcond.1)]
      congr 1
      ring

lemma outside_total_nonneg (records : List GradeRecord) (g : String)
    (h : ∀ r ∈ records, 0 ≤ (pyInt r.count).getD 0) : 0 ≤ outside_total records g := by
  refine List.sum_nonneg ?_
  intro x hx
  obtain ⟨r, hr, hxr⟩ := List.mem_map.mp hx
  subst hxr
  by_cases hc : pyUpper r.grade = g ∧ r.boro ∉ known_boroughs
  · rw [if_pos hc]
    exact h r hr
  · rw [if_neg hc]

lemma aggGradeAux_column (bs gs : List String) (g : String) (hg : g ∈ gs) :
    ∀ (records : List GradeRecord) (t0 : List ((String × String) × Int)),
      (∀ r ∈ records, (pyInt r.count).isSome = true) →
      (t0.map Prod.fst).Nodup →
      (∀ b ∈ bs, ∀ g2 ∈ gs, (b, g2) ∈ t0.map Prod.fst) →
      ∃ t, aggGradeAux bs gs t0 records = .ok t
        ∧ tableGradeTotal t g = tableGradeTotal t0 g
            + (records.map (fun r =>
                if pyUpper r.grade = g ∧ r.boro ∈ bs
                then (pyInt r.count).getD 0 else 0)).sum := by
  intro records
  induction records with
  | nil =>
    intro t0 _ _ _
    exact ⟨t0, rfl, by simp⟩
  | cons r rs ih =>
    intro t0 hparse hnd hmem
    obtain ⟨c, hc⟩ := Option.isSome_iff_exists.mp (hparse r (List.mem_cons_self r rs))
    by_cases hm : r.boro ∈ bs ∧ pyUpper r.grade ∈ gs
    · have hstep : gradeStep bs gs t0 r
          = .ok (assocAdd t0 (r.boro, pyUpper r.grade) c) := by
        unfold gradeStep
        simp only [hc]
        rw [if_pos hm]
      have hkeys : (assocAdd t0 (r.boro, pyUpper r.grade) c).map Prod.fst
          = t0.map Prod.fst := assocAdd_map_fst t0 _ c
      obtain ⟨t, hok, hcol⟩ := ih (assocAdd t0 (r.boro, pyUpper r.grade) c)
        (fun q hq => hparse q (List.mem_cons_of_mem r hq))
        (by rw [hkeys]; exact hnd)
        (by intro b hb g2 hg2; rw [hkeys]; exact hmem b hb g2 hg2)
      refine ⟨t, ?_, ?_⟩
      · rw [aggGradeAux_cons, hstep]
        exact hok
      · rw [hcol, tableGradeTotal_assocAdd t0 _ c g hnd (hmem r.boro hm.1 _ hm.2)]
        simp only [List.map_cons, List.sum_cons, hc, Option.getD_some]
        by_cases d : pyUpper r.grade = g
        · rw [if_pos d, if_pos ⟨d, hm.1⟩]
          ring
        · rw [if_neg d, if_neg (by simp [d])]
          ring
    · have hstep : gradeStep bs gs t0 r = .ok t0 := by
        unfold gradeStep
        simp only [hc]
        rw [if_neg hm]
      obtain ⟨t, hok, hcol⟩ := ih t0
        (fun q hq => hparse q (List.mem_cons_of_mem r hq)) hnd hmem
      refine ⟨t, ?_, ?_⟩
      · rw [aggGradeAux_cons, hstep]
        exact hok
      · rw [hcol]
        simp only [List.map_cons, List.sum_cons]
        rw [if_neg ?_]
        · ring
        · intro hcond
          exact hm ⟨hcond.2, hcond.1 ▸ hg⟩

/-! ### Sorting lemmas for `top_n` -/

lemma filter_orderedInsert (a : String × Int) (l : List (String × Int)) (k : Int) :
    (l.orderedInsert countDesc a).filter (fun x => decide (x.2 = k))
      = if a.2 = k then a :: l.filter (fun x => decide (x.2 = k))
        else l.filter (fun x => decide (x.2 = k)) := by
  induction l with
  | nil =>
    by_cases h : a.2 = k <;> simp [List.orderedInsert, h]
  | cons b t ih =>
    rw [List.orderedInsert]
    by_cases hr : countDesc a b
    · rw [if_pos hr]
      by_cases h : a.2 = k <;> simp [List.filter_cons, h]
    · rw [if_neg hr]
      have hab : a.2 < b.2 := lt_of_not_le hr
      rw [List.filter_cons, List.filter_cons, ih]
      by_cases hb : b.2 = k
      · have ha : a.2 ≠ k := by omega
        simp [hb, ha]
      · by_cases ha : a.2 = k <;> simp [hb, ha]

lemma filter_insertionSort_eq (l : List (String × Int)) (k : Int) :
    (l.insertionSort countDesc).filter (fun x => decide (x.2 = k))
      = l.filter (fun x => decide (x.2 = k)) := by
  induction l with
  | nil => rfl
  | cons a t ih =>
    rw [List.insertionSort, filter_orderedInsert, List.filter_cons]
    by_cases h : a.2 = k <;> simp [h, ih]

/-! ### Claims about the category aggregation -/

/-- C1: for every complaint-record list and every bucket-definition mapping
(pairwise-distinct bucket names, catch-all bucket present), a successful
category aggregation returns per-bucket totals whose sum equals the sum of
the counts of all input records: every input count is accounted for exactly
once. -/
theorem category_totals_sum_eq_input_sum
    (records : List ComplaintRecord) (buckets : List (String × List String))
    (catchAll : String) (m : List (String × Int))
    (hnd : (buckets.map Prod.fst).Nodup)
    (hca : catchAll ∈ buckets.map Prod.fst)
    (hok : aggregate_by_category records buckets catchAll = .ok m) :
    (m.map Prod.snd).sum = (records.map (fun r => (pyInt r.count).getD 0)).sum := by
  have h0 : (buckets.map (fun p => (p.1, (0:Int)))).map Prod.fst = buckets.map Prod.fst := by
    rw [List.map_map]
    rfl
  have hz : ((buckets.map (fun p => (p.1, (0:Int)))).map Prod.snd).sum = 0 := by
    rw [List.map_map]
    refine List.sum_eq_zero ?_
    intro x hx
    obtain ⟨q, _, hq⟩ := List.mem_map.mp hx
    exact hq ▸ rfl
  have hok2 : aggCategoryAux buckets catchAll
      (buckets.map (fun p => (p.1, 0))) records = .ok m := hok
  have hsum := aggCategoryAux_sndSum buckets catchAll records
      (buckets.map (fun p => (p.1, 0))) m
      (by rw [h0]; exact hnd) (by rw [h0]; exact hca)
      (by intro p hp; rw [h0]; exact List.mem_map_of_mem Prod.fst hp) hok2
  rw [hsum, hz, zero_add]

/-- Witness for C1 at the demo bucket mapping and record list. -/
theorem category_totals_sum_eq_input_sum_witness :
    (([("Infrastructure", (3:Int)), ("Noise", 5), ("Other", 2)] :
        List (String × Int)).map Prod.snd).sum
      = (([⟨"Noise", "5"⟩, ⟨"HEAT/HOT WATER", "3"⟩, ⟨"Weird", "2"⟩] :
          List ComplaintRecord).map (fun r => (pyInt r.count).getD 0)).sum :=
  category_totals_sum_eq_input_sum _
    [("Infrastructure", ["HEAT/HOT WATER"]), ("Noise", ["Noise"]), ("Other", [])]
    "Other" _ (by decide) (by decide) (by decide)

/-- C2: the categorisation scans the bucket definitions in their fixed
priority order and adds each record's count to the first bucket whose type
set contains the record's type exactly (`categorize` agrees with
`List.find?` over the bucket list), falling through to the catch-all bucket;
on the demo input the result is Infrastructure 3, Noise 5, Other 2. -/
theorem category_first_match_order_and_demo :
    (∀ (buckets : List (String × List String)) (t : String),
        categorize buckets t = (buckets.find? (fun p => decide (t ∈ p.2))).map Prod.fst)
    ∧ aggregate_by_category
        [⟨"Noise", "5"⟩, ⟨"HEAT/HOT WATER", "3"⟩, ⟨"Weird", "2"⟩]
        [("Infrastructure", ["HEAT/HOT WATER"]), ("Noise", ["Noise"]), ("Other", [])]
        "Other"
      = .ok [("Infrastructure", 3), ("Noise", 5), ("Other", 2)] :=
  ⟨categorize_eq_find, by decide⟩

/-- C3 counterexample: a record with the negative numeric count "-5" does not
make the aggregation fail — Python `int()` parses it and the loop adds it to
a bucket — so "fails exactly when some count is negative or non-numeric" is
false on the code. -/
theorem category_negative_count_no_error_counterexample :
    pyInt "-5" = some (-5)
    ∧ (aggregate_by_category [⟨"Broken Meter", "-5"⟩] bucket_definitions "Other").isOk
        = true := by
  decide

/-- C3 (amended): the category aggregation fails with an `InvalidRecordError`
exactly when some record's count is non-numeric — a negative numeric count is
accepted and aggregated — and the empty input yields every bucket at zero,
not an error. -/
theorem category_error_iff_nonnumeric_and_empty_zero :
    ∀ (records : List ComplaintRecord) (buckets : List (String × List String))
      (catchAll : String),
      ((∃ e, aggregate_by_category records buckets catchAll = .error e)
        ↔ ∃ r ∈ records, pyInt r.count = none)
      ∧ aggregate_by_category [] buckets catchAll
          = .ok (buckets.map (fun p => (p.1, 0))) :=
  fun records buckets catchAll =>
    ⟨aggCategoryAux_error_iff buckets catchAll records _, rfl⟩

/-- C9: for every record list (including the empty one) every declared bucket
name appears as a key of a successful aggregation result — the result keys
are exactly the declared bucket names in order — and a bucket to which no
record is assigned keeps total zero. -/
theorem buckets_all_present_and_zero_if_unassigned
    (records : List ComplaintRecord) (buckets : List (String × List String))
    (catchAll : String) (m : List (String × Int))
    (hok : aggregate_by_category records buckets catchAll = .ok m) :
    m.map Prod.fst = buckets.map Prod.fst
    ∧ ∀ b ∈ buckets.map Prod.fst,
        (∀ r ∈ records, (categorize buckets r.complaint_type).getD catchAll ≠ b) →
        ∀ p ∈ m, p.1 = b → p.2 = 0 := by
  have h0 : (buckets.map (fun p => (p.1, (0:Int)))).map Prod.fst = buckets.map Prod.fst := by
    rw [List.map_map]
    rfl
  constructor
  · rw [aggCategoryAux_keys buckets catchAll records _ m hok, h0]
  · intro b _ hb
    refine aggCategoryAux_zero buckets catchAll b records _ m hok hb ?_
    intro p hp _
    obtain ⟨q, _, hq⟩ := List.mem_map.mp hp
    rw [← hq]

/-- Witness for C9: a concrete aggregation whose result keys are the declared
bucket names. -/
theorem buckets_all_present_and_zero_if_unassigned_witness :
    ([("Infrastructure", (0:Int)), ("Noise", 5), ("Parking", 0), ("Other", 0)] :
      List (String × Int)).map Prod.fst = bucket_definitions.map Prod.fst :=
  (buckets_all_present_and_zero_if_unassigned [⟨"Noise", "5"⟩] bucket_definitions "Other"
    _ (by decide)).1

/-! ### Claims about the borough/grade aggregation -/

/-- C4: for every input record list, a successful borough-and-grade
aggregation returns the dense table whose keys are exactly the declared
(borough, grade) combinations — hence `len(known_boroughs) *
len(recognized_grades)` cells, none missing — and every cell absent from the
input (no record carries that borough and that uppercased grade) holds the
value zero. -/
theorem dense_table_all_cells
    (records : List GradeRecord) (bs gs : List String)
    (table : List ((String × String) × Int))
    (hb : bs.Nodup) (hg : gs.Nodup)
    (hok : aggregate_by_borough_and_grade records bs gs = .ok table) :
    table.map Prod.fst = bs.flatMap (fun b => gs.map (fun g => (b, g)))
    ∧ table.length = bs.length * gs.length
    ∧ ∀ p ∈ table,
        (∀ r ∈ records, ¬(r.boro = p.1.1 ∧ pyUpper r.grade = p.1.2)) → p.2 = 0 := by
  have hok2 : aggGradeAux bs gs (initTable bs gs) records = .ok table := hok
  have hkeys : table.map Prod.fst = (initTable bs gs).map Prod.fst :=
    aggGradeAux_keys bs gs records _ table hok2
  have hinit : (initTable bs gs).map Prod.fst
      = bs.flatMap (fun b => gs.map (fun g => (b, g))) := by
    unfold initTable
    rw [List.map_flatMap]
    simp [List.map_map, Function.comp_def]
  refine ⟨?_, ?_, ?_⟩
  · rw [hkeys, hinit]
  · have hlen : table.length = (table.map Prod.fst).length := (List.length_map _ _).symm
    rw [hlen, hkeys, hinit]
    simp [List.length_flatMap, Function.comp_def, List.length_map, List.map_const',
      List.sum_replicate, mul_comm]
  · intro p hp hnr
    exact aggGradeAux_zero bs gs p.1 records _ table hok2 hnr
      (fun q hq _ => initTable_vals bs gs q hq) p hp rfl

/-- Witness for C4 at the five boroughs, three grades and a record list with
an undeclared borough. -/
theorem dense_table_all_cells_witness :
    (initTable known_boroughs recognized_grades).map Prod.fst
      = known_boroughs.flatMap (fun b => recognized_grades.map (fun g => (b, g)))
    ∧ (initTable known_boroughs recognized_grades).length
      = known_boroughs.length * recognized_grades.length :=
  ⟨(dense_table_all_cells [⟨"Mars", "A", "5"⟩] known_boroughs recognized_grades _
      (by decide) (by decide) (by decide)).1,
   (dense_table_all_cells [⟨"Mars", "A", "5"⟩] known_boroughs recognized_grades _
      (by decide) (by decide) (by decide)).2.1⟩

/-- C5: a record whose borough is not a declared borough or whose grade is
not recognised never makes the aggregation fail — it is silently excluded,
leaving the table exactly as if the record were absent — and the demo input
([Manhattan a 10, Mars A 5]) yields the dense table with cell
(Manhattan, A) = 10, no Mars cell at all, and every other declared cell 0. -/
theorem unmatched_record_silently_excluded :
    (∀ (bs gs : List String) (rs1 rs2 : List GradeRecord) (r : GradeRecord),
        (pyInt r.count).isSome = true →
        (r.boro ∉ bs ∨ pyUpper r.grade ∉ gs) →
        aggregate_by_borough_and_grade (rs1 ++ r :: rs2) bs gs
          = aggregate_by_borough_and_grade (rs1 ++ rs2) bs gs)
    ∧ aggregate_by_borough_and_grade
        [⟨"Manhattan", "a", "10"⟩, ⟨"Mars", "A", "5"⟩]
        known_boroughs recognized_grades
      = .ok [(("Manhattan", "A"), 10), (("Manhattan", "B"), 0), (("Manhattan", "C"), 0),
             (("Brooklyn", "A"), 0), (("Brooklyn", "B"), 0), (("Brooklyn", "C"), 0),
             (("Queens", "A"), 0), (("Queens", "B"), 0), (("Queens", "C"), 0),
             (("Bronx", "A"), 0), (("Bronx", "B"), 0), (("Bronx", "C"), 0),
             (("Staten Island", "A"), 0), (("Staten Island", "B"), 0),
             (("Staten Island", "C"), 0)] :=
  ⟨fun bs gs rs1 rs2 r hc hu => aggGradeAux_skip bs gs r hc hu rs1 rs2 _, by decide⟩

/-- Witness for C5: dropping the Mars record from the demo input does not
change the aggregation result. -/
theorem unmatched_record_silently_excluded_witness :
    aggregate_by_borough_and_grade
        [⟨"Manhattan", "a", "10"⟩, ⟨"Mars", "A", "5"⟩]
        known_boroughs recognized_grades
      = aggregate_by_borough_and_grade [⟨"Manhattan", "a", "10"⟩]
        known_boroughs recognized_grades :=
  unmatched_record_silently_excluded.1 known_boroughs recognized_grades
    [⟨"Manhattan", "a", "10"⟩] [] ⟨"Mars", "A", "5"⟩ (by decide) (by decide)

/-- C8: the borough-and-grade aggregation is case-insensitive in the grade
field — replacing any record's grade by its uppercase form leaves the table
unchanged — and a record with grade "a" is counted in the (Manhattan, A)
cell. -/
theorem grade_case_insensitive :
    (∀ (bs gs : List String) (rs1 rs2 : List GradeRecord) (r : GradeRecord),
        aggregate_by_borough_and_grade
            (rs1 ++ { r with grade := pyUpper r.grade } :: rs2) bs gs
          = aggregate_by_borough_and_grade (rs1 ++ r :: rs2) bs gs)
    ∧ (aggregate_by_borough_and_grade [⟨"Manhattan", "a", "10"⟩]
          known_boroughs recognized_grades).map
        (fun t => t.lookup ("Manhattan", "A")) = .ok (some 10) :=
  ⟨fun bs gs rs1 rs2 r =>
      aggGradeAux_congr_mid bs gs r _ (gradeStep_upper_congr bs gs r) rs1 rs2 _,
    by decide⟩

/-! ### Pie totals versus chart totals -/

/-- C10 counterexample: on the record list [Mars, A, 0] the pie total for
grade A and the chart's five-borough A column total are both 0 — equal —
although an A-record with a borough outside the five-borough set exists, so
"equality exactly when no A/B/C record carries a borough outside that set"
is false at this input. -/
theorem pie_chart_equality_zero_count_counterexample :
    total_grade [⟨"Mars", "A", "0"⟩] "A" = .ok 0
    ∧ (aggregate_by_borough_and_grade [⟨"Mars", "A", "0"⟩]
          known_boroughs recognized_grades).map (fun t => tableGradeTotal t "A")
        = .ok 0
    ∧ pyUpper "A" = "A"
    ∧ "Mars" ∉ known_boroughs := by
  decide

/-- C10 (amended): for record lists whose counts parse and are non-negative,
each overall pie grade total equals the chart's five-borough column total for
that grade plus the total count carried by records of that grade with
out-of-set boroughs; that outside part is non-negative, so the pie total is
always ≥ the chart total, with equality exactly when the outside total is
zero (not exactly when no outside record exists — a zero-count outside
record keeps the totals equal). -/
theorem pie_total_vs_chart_total
    (records : List GradeRecord) (g : String)
    (hg : g ∈ recognized_grades)
    (hparse : ∀ r ∈ records, (pyInt r.count).isSome = true)
    (hnonneg : ∀ r ∈ records, 0 ≤ (pyInt r.count).getD 0) :
    ∃ t total,
      aggregate_by_borough_and_grade records known_boroughs recognized_grades = .ok t
      ∧ total_grade records g = .ok total
      ∧ total = tableGradeTotal t g + outside_total records g
      ∧ tableGradeTotal t g ≤ total
      ∧ (total = tableGradeTotal t g ↔ outside_total records g = 0) := by
  obtain ⟨t, hok, hcol⟩ := aggGradeAux_column known_boroughs recognized_grades g hg
    records (initTable known_boroughs recognized_grades) hparse (by decide) (by decide)
  have hok2 : aggregate_by_borough_and_grade records known_boroughs recognized_grades
      = .ok t := hok
  have hz : tableGradeTotal (initTable known_boroughs recognized_grades) g = 0 := by
    simp [tableGradeTotal, initTable, known_boroughs, recognized_grades]
  have hcol2 : tableGradeTotal t g = in_total records g := by
    rw [hcol, hz, zero_add]
    rfl
  have htot := totalGradeAux_split g records 0 hparse
  have hout : 0 ≤ outside_total records g := outside_total_nonneg records g hnonneg
  refine ⟨t, tableGradeTotal t g + outside_total records g, hok2, ?_, rfl,
    by omega, by omega⟩
  show totalGradeAux g 0 records = _
  rw [htot, hcol2]
  congr 1
  ring

/-- Witness for C10 (amended) at the demo record list and grade A: the pie
total is 15, the chart column total 10, the outside total 5. -/
theorem pie_total_vs_chart_total_witness :
    ∃ t total,
      aggregate_by_borough_and_grade
          [⟨"Manhattan", "a", "10"⟩, ⟨"Mars", "A", "5"⟩]
          known_boroughs recognized_grades = .ok t
      ∧ total_grade [⟨"Manhattan", "a", "10"⟩, ⟨"Mars", "A", "5"⟩] "A" = .ok total
      ∧ total = tableGradeTotal t "A"
          + outside_total [⟨"Manhattan", "a", "10"⟩, ⟨"Mars", "A", "5"⟩] "A"
      ∧ tableGradeTotal t "A" ≤ total
      ∧ (total = tableGradeTotal t "A"
          ↔ outside_total [⟨"Manhattan", "a", "10"⟩, ⟨"Mars", "A", "5"⟩] "A" = 0) :=
  pie_total_vs_chart_total _ "A" (by decide) (by decide) (by decide)

/-! ### Claims about `top_n` -/

/-- C7: `top_n` returns the first n records of the stable descending sort on
the count key — the output is sorted descending, and ties preserve original
input order (filtering the sorted list at any count value returns exactly the
input's records of that count, in input order) — and `top_n` is idempotent at
every n, in particular n = 10. -/
theorem top_n_stable_sort_and_idempotent :
    ∀ (records : List (String × Int)) (n : Nat) (k : Int),
      List.Sorted countDesc (top_n records n)
      ∧ (sortByCountDesc records).filter (fun x => decide (x.2 = k))
          = records.filter (fun x => decide (x.2 = k))
      ∧ top_n (top_n records n) n = top_n records n := by
  intro records n k
  have hsorted : List.Sorted countDesc (records.insertionSort countDesc) :=
    List.sorted_insertionSort countDesc records
  have htake : List.Sorted countDesc ((records.insertionSort countDesc).take n) :=
    hsorted.sublist (List.take_sublist n _)
  refine ⟨htake, filter_insertionSort_eq records k, ?_⟩
  show (((records.insertionSort countDesc).take n).insertionSort countDesc).take n
      = (records.insertionSort countDesc).take n
  rw [htake.insertionSort_eq, List.take_take, min_self]

/-! ### Claims about `compute_percentage` -/

/-- C6 counterexample: the code's `compute_percentage` returns the unrounded
value 100/3 at (1, 3) while the claim's rounded-to-one-decimal value is
333/10; at (1, -4) the code returns 0 (its guard is `total > 0`, not
`total == 0`) while the claim demands -25; and the HTML-dashboard
realisation raises a ZeroDivisionError at a zero denominator instead of
returning 0.0. -/
theorem compute_percentage_counterexample :
    compute_percentage 1 3 ≠ compute_percentage_spec 1 3
    ∧ compute_percentage 1 (-4) ≠ compute_percentage_spec 1 (-4)
    ∧ grade_a_pct_html 0 0 = .error ⟨⟩ := by
  refine ⟨?_, ?_, rfl⟩
  · norm_num [compute_percentage, compute_percentage_spec, round_eq]
  · norm_num [compute_percentage, compute_percentage_spec, round_eq]

/-- C6 (amended): the guarded realisation of `compute_percentage` returns the
exact (unrounded) `part / whole * 100` when `whole > 0` and 0 whenever
`whole ≤ 0` — rounding to one decimal place happens only in display
formatting — so `compute_percentage 0 0 = 0` and
`compute_percentage 3 12 = 25`; the HTML-dashboard realisation divides
without a guard and raises ZeroDivisionError exactly when the denominator is
zero. -/
theorem compute_percentage_guarded (part whole : Int) :
    (0 < whole → compute_percentage part whole = (part : ℚ) / (whole : ℚ) * 100)
    ∧ (whole ≤ 0 → compute_percentage part whole = 0)
    ∧ (whole ≠ 0 → grade_a_pct_html part whole = .ok ((part : ℚ) / (whole : ℚ) * 100))
    ∧ (whole = 0 → grade_a_pct_html part whole = .error ⟨⟩)
    ∧ compute_percentage 0 0 = 0
    ∧ compute_percentage 3 12 = 25 := by
  refine ⟨fun h => ?_, fun h => ?_, fun h => ?_, fun h => ?_, ?_, ?_⟩
  · unfold compute_percentage
    rw [if_pos h]
  · unfold compute_percentage
    rw [if_neg (not_lt.mpr h)]
  · unfold grade_a_pct_html
    rw [if_neg h]
  · unfold grade_a_pct_html
    rw [if_pos h]
  · norm_num [compute_percentage]
  · norm_num [compute_percentage]

/-- Witness for C6 (amended) at part 3, whole 12. -/
theorem compute_percentage_guarded_witness :
    compute_percentage 3 12 = (3 : ℚ) / (12 : ℚ) * 100 :=
  (compute_percentage_guarded 3 12).1 (by norm_num)

end Civic
